import Mathlib

/-!
Verification of the negotiation-and-relay subsystem of the Screenshare-App
repository: the signaling relay hub (signaling.go), the per-peer negotiation
session with its candidate buffer (client/client-bridge.go and the related
bridge variants), the length-prefixed frame transport leg
(server/server.go writer, bridge reader), and the frame source and sink
adapters.  Go code is shallowly embedded: maps become association lists,
the websocket membership map becomes a list of connection identifiers,
unchecked Go type assertions become an explicit panic outcome, log.Fatalf
becomes an explicit process-exit outcome, and byte values become Nat.
-/

/-- A remote ICE candidate as carried inside an ice-candidate message
(webrtc.ICECandidateInit: candidate string, sdpMid, sdpMLineIndex). -/
structure ICECandidateInit where
  candidate : String
  sdpMid : String
  sdpMLineIndex : Nat
deriving DecidableEq, Repr

/-- A well-formed signaling message after field extraction, tagged by the
value of its type field (the switch in the bridge signaling loops). -/
inductive SignalMsg where
  | offer (sdp : String)
  | answer (sdp : String)
  | iceCandidate (c : ICECandidateInit)
  | unknown (tag : String)
deriving DecidableEq, Repr

/-- Observable state of the client-bridge negotiation session
(client/client-bridge.go): the remote description held by the peer
connection, the candidateBuffer global, and the ordered list of candidates
handed to AddICECandidate so far (each list entry is one call). -/
structure BridgeState where
  remoteDesc : Option String
  candidateBuffer : List ICECandidateInit
  applied : List ICECandidateInit
deriving DecidableEq, Repr

/-- Session state at program start: no remote description, empty buffer,
no candidate applied yet. -/
def initBridge : BridgeState := ⟨none, [], []⟩

/-- One iteration of the signaling loop of client/client-bridge.go on an
already-extracted message.
Offer case (lines 137-174): SetRemoteDescription(offer), then every
buffered candidate is passed to AddICECandidate in buffer order (a failed
add is logged and does not stop the flush), then candidateBuffer = nil.
Ice-candidate case (lines 176-194): if RemoteDescription() is nil the
candidate is appended to candidateBuffer, otherwise AddICECandidate is
called immediately.  Answer case: only logged.  Default case: only logged. -/
def bridgeStep (s : BridgeState) (m : SignalMsg) : BridgeState :=
  match m with
  | SignalMsg.offer sdp =>
      { remoteDesc := some sdp
        candidateBuffer := []
        applied := s.applied ++ s.candidateBuffer }
  | SignalMsg.iceCandidate c =>
      match s.remoteDesc with
      | none => { s with candidateBuffer := s.candidateBuffer ++ [c] }
      | some _ => { s with applied := s.applied ++ [c] }
  | SignalMsg.answer _ => s
  | SignalMsg.unknown _ => s

/-- The signaling loop run over a whole sequence of received messages. -/
def bridgeRun (s : BridgeState) (msgs : List SignalMsg) : BridgeState :=
  msgs.foldl bridgeStep s

/-- A JSON value as decoded by ws.ReadJSON into map[string]interface: a
string, a number (sdpMLineIndex), or a nested object. -/
inductive JVal where
  | str (s : String)
  | num (n : Nat)
  | obj (fields : List (String × JVal))

/-- Outcome of running a piece of Go code that may hit a failed type
assertion: either a result, or a runtime panic that kills the goroutine
and with it the process. -/
inductive GoResult (α : Type) where
  | ok (a : α)
  | panicked
deriving DecidableEq, Repr

/-- Lookup of a key in a decoded JSON object; a missing key yields none
(in Go, the nil interface value). -/
def jlookup (fields : List (String × JVal)) (k : String) : Option JVal :=
  match fields.find? (fun p => p.1 == k) with
  | some p => some p.2
  | none => none

/-- The Go expression v.(string): panics unless the value is present and
is a string. -/
def assertString : Option JVal → GoResult String
  | some (JVal.str s) => GoResult.ok s
  | _ => GoResult.panicked

/-- The Go expression v.(float64) followed by uint16 conversion: panics
unless the value is present and numeric. -/
def assertNum : Option JVal → GoResult Nat
  | some (JVal.num n) => GoResult.ok n
  | _ => GoResult.panicked

/-- The Go expression v.(map[string]interface): panics unless the value
is present and an object. -/
def assertObj : Option JVal → GoResult (List (String × JVal))
  | some (JVal.obj fs) => GoResult.ok fs
  | _ => GoResult.panicked

/-- One iteration of the client-bridge signaling loop on the raw decoded
JSON object, field extraction included, mirroring the switch on the type
field of client/client-bridge.go.  The offer case reads msg sdp with an
unchecked string assertion; the ice-candidate case reads msg candidate
with an unchecked object assertion and then sdpMid, sdpMLineIndex and
candidate with unchecked assertions; the answer case and the default case
only log.  A failed assertion is a runtime panic. -/
def processSignal (s : BridgeState) (msg : List (String × JVal)) :
    GoResult BridgeState :=
  match jlookup msg "type" with
  | some (JVal.str "offer") =>
      match assertString (jlookup msg "sdp") with
      | GoResult.ok sdp => GoResult.ok (bridgeStep s (SignalMsg.offer sdp))
      | GoResult.panicked => GoResult.panicked
  | some (JVal.str "ice-candidate") =>
      match assertObj (jlookup msg "candidate") with
      | GoResult.panicked => GoResult.panicked
      | GoResult.ok cand =>
          match assertString (jlookup cand "sdpMid"),
                assertNum (jlookup cand "sdpMLineIndex"),
                assertString (jlookup cand "candidate") with
          | GoResult.ok mid, GoResult.ok idx, GoResult.ok cs =>
              GoResult.ok (bridgeStep s (SignalMsg.iceCandidate ⟨cs, mid, idx⟩))
          | _, _, _ => GoResult.panicked
  | some (JVal.str "answer") => GoResult.ok s
  | _ => GoResult.ok s

/-- Observable state of the frontend negotiation handler
(frontend-app/src/webrtc.connect.jsx, first variant): whether
pc.signalingState is already stable, the remote description, the
pendingCandidates array, and the ordered list of addIceCandidate calls. -/
structure JsxState where
  stable : Bool
  remoteDesc : Option String
  pending : List ICECandidateInit
  applied : List ICECandidateInit
deriving DecidableEq, Repr

/-- The answer branch of ws.onmessage in webrtc.connect.jsx (lines 69-92):
guarded by signalingState not yet stable; when the guard passes it sets
the remote description (after which the signaling state is stable),
flushes pendingCandidates in order, and empties the array; when the state
is already stable nothing at all happens. -/
def jsxAnswer (s : JsxState) (sdp : String) : JsxState :=
  if s.stable then s
  else
    { stable := true
      remoteDesc := some sdp
      pending := []
      applied := s.applied ++ s.pending }

/-- The answer case of the unnamed Go bridge variant
(src/unnamed/part_000, lines 121-129): it unconditionally builds a
SessionDescription from msg sdp and calls SetRemoteDescription, with no
phase guard, overwriting whatever remote description was already held. -/
def part000Answer (_remoteDesc : Option String) (sdp : String) : Option String :=
  some sdp

/-- One fan-out of the relay hub (signaling.go, lines 35-41): the message
received from the sender is written to every member of the clients map
other than the sender, payload untouched. Connections are identifiers,
deliveries are recipient-payload pairs. -/
def hubForward (clients : List Nat) (sender : Nat) (payload : List Nat) :
    List (Nat × List Nat) :=
  (clients.filter (fun c => c != sender)).map (fun c => (c, payload))

/-- Events of handleWS observable on the shared clients map: registration
on upgrade, a received message triggering fan-out, removal after read-loop
exit.  The mutex serializes all three, so a trace is a sequence of atomic
operations. -/
inductive HubOp where
  | connect (c : Nat)
  | message (sender : Nat) (payload : List Nat)
  | disconnect (c : Nat)
deriving DecidableEq, Repr

/-- Effect of one hub operation on the membership list: connect inserts
(clients map assignment, no duplicate since the key is the connection),
message leaves membership untouched, disconnect deletes the entry. -/
def hubApply (m : List Nat) : HubOp → List Nat
  | HubOp.connect c => if c ∈ m then m else m ++ [c]
  | HubOp.message _ _ => m
  | HubOp.disconnect c => m.filter (fun x => x != c)

/-- Recipients of one hub operation: a message from a sender goes to every
current member other than the sender; connect and disconnect deliver
nothing. -/
def opDeliveries (m : List Nat) : HubOp → List Nat
  | HubOp.message s _ => m.filter (fun x => x != s)
  | _ => []

/-- Membership after running a sequence of hub operations. -/
def hubRunFrom (m : List Nat) : List HubOp → List Nat
  | [] => m
  | op :: rest => hubRunFrom (hubApply m op) rest

/-- Result of WriteMessage to a connection: false when that connection is
in the failing set. -/
def wsWrite (failing : List Nat) (c : Nat) : Bool :=
  c ∉ failing

/-- Everything one fan-out iteration of handleWS does, write failures
included.  The loop body is: if c is not the sender, call WriteMessage and
discard its result.  No branch inspects the error, the loop never breaks
early, no log statement exists inside the loop, and the clients map is not
modified (deletion happens only at lines 44-46, after the read loop). -/
structure FanoutTrace where
  attempts : List (Nat × Bool)
  logs : List String
  members : List Nat
deriving DecidableEq, Repr

/-- One fan-out of signaling.go with a set of recipients whose writes
fail: every non-sender member is attempted in order regardless of earlier
failures, nothing is logged, membership is unchanged. -/
def fanoutFull (m : List Nat) (sender : Nat) (failing : List Nat) :
    FanoutTrace :=
  { attempts := (m.filter (fun c => c != sender)).map
      (fun c => (c, wsWrite failing c))
    logs := []
    members := m }

/-- Outcome of running a handler that may call log.Fatalf (equivalently
os.Exit with a non-zero status): either the handler returns a result and
the process continues, or the whole process terminates. -/
inductive ExecOutcome (α : Type) where
  | ok (a : α)
  | fatalExit
deriving DecidableEq, Repr

/-- The ice-candidate application with a fallible provider: an
AddICECandidate error is logged and the candidate skipped; the session
always continues (client/client-bridge.go lines 190-193). -/
def candCaseFallible (s : BridgeState) (c : ICECandidateInit) (ok : Bool) :
    ExecOutcome BridgeState :=
  ExecOutcome.ok (if ok then { s with applied := s.applied ++ [c] } else s)

/-- The offer case with a fallible provider: a SetRemoteDescription error
hits log.Fatalf at client/client-bridge.go lines 144-146, terminating the
whole process; on success the buffer is flushed (flush errors are logged
and skipped) and cleared. -/
def offerCaseFallible (s : BridgeState) (sdp : String) (setRemoteOk : Bool) :
    ExecOutcome BridgeState :=
  if setRemoteOk then
    ExecOutcome.ok
      { remoteDesc := some sdp
        candidateBuffer := []
        applied := s.applied ++ s.candidateBuffer }
  else ExecOutcome.fatalExit

/-- One iteration outcome of a frame-sending loop: the capture command
failed, the file read failed, or a frame with the given bytes is ready. -/
inductive FrameStep where
  | captureFail
  | readFail
  | frame (data : List Nat)
deriving DecidableEq, Repr

/-- A failure step of the frame loop. -/
def FrameStep.isFail : FrameStep → Bool
  | FrameStep.captureFail => true
  | FrameStep.readFail => true
  | FrameStep.frame _ => false

/-- The fbgrab frame loop of client/client-bridge.go (lines 98-124) run
until the first successful send, over a schedule of iteration outcomes:
a capture or read failure logs, sleeps one pacing interval and retries;
a ready frame is sent.  Returns the first frame sent (none if the
schedule is exhausted) paired with the number of backoff sleeps taken. -/
def fbgrabLoop : List FrameStep → Nat → Option (List Nat) × Nat
  | [], sleeps => (none, sleeps)
  | FrameStep.captureFail :: rest, sleeps => fbgrabLoop rest (sleeps + 1)
  | FrameStep.readFail :: rest, sleeps => fbgrabLoop rest (sleeps + 1)
  | FrameStep.frame d :: _, sleeps => (some d, sleeps)

/-- The scrot frame loop of src/unnamed/part_002 (lines 309-336) run until
the first successful send: a capture or read failure logs and retries
immediately with no sleep; a ready frame is sent. -/
def scrotLoop : List FrameStep → Nat → Option (List Nat) × Nat
  | [], sleeps => (none, sleeps)
  | FrameStep.captureFail :: rest, sleeps => scrotLoop rest sleeps
  | FrameStep.readFail :: rest, sleeps => scrotLoop rest sleeps
  | FrameStep.frame d :: _, sleeps => (some d, sleeps)

/-- The four bytes of a uint32 written in big-endian order
(binary.Write BigEndian in server/server.go line 79). -/
def toBE32 (n : Nat) : List Nat :=
  [n / 16777216 % 256, n / 65536 % 256, n / 256 % 256, n % 256]

/-- The uint32 read back from four big-endian bytes
(binary.Read BigEndian in src/unnamed/part_000 line 156). -/
def fromBE32 (b0 b1 b2 b3 : Nat) : Nat :=
  ((b0 * 256 + b1) * 256 + b2) * 256 + b3

/-- One frame on the wire: 4-byte big-endian length of the payload
followed by the payload bytes (server/server.go lines 78-88). -/
def encodeFrame (f : List Nat) : List Nat :=
  toBE32 f.length ++ f

/-- A whole stream: the concatenation of the encoded frames in order. -/
def encodeStream (fs : List (List Nat)) : List Nat :=
  (fs.map encodeFrame).flatten

/-- The reader loop of src/unnamed/part_000 (lines 153-169): repeatedly
read a 4-byte big-endian length, then exactly that many payload bytes
(io.ReadFull); a truncated header or truncated payload is a read error,
modeled as none.  An empty stream is a clean EOF. -/
def decodeStream (s : List Nat) : Option (List (List Nat)) :=
  match s with
  | [] => some []
  | b0 :: b1 :: b2 :: b3 :: rest =>
      let n := fromBE32 b0 b1 b2 b3
      if n ≤ rest.length then
        match decodeStream (rest.drop n) with
        | some fs => some (rest.take n :: fs)
        | none => none
      else none
  | _ => none
termination_by s.length
decreasing_by
  simp only [List.length_drop, List.length_cons]
  omega

/-- The onFrame callback of client/clientgui.go (lines 34-43) acting on
the displayed image: a frame whose bytes fail to decode is logged and
skipped, leaving the display unchanged; a frame that decodes replaces the
displayed image.  The decoder is a parameter (image.Decode is external). -/
def onFrame (decode : List Nat → Option Nat) (displayed : Option Nat)
    (frame : List Nat) : Option Nat :=
  match decode frame with
  | none => displayed
  | some i => some i

/-- The receive path over a sequence of inbound data-channel frames: each
frame is handed to onFrame in order; a decode failure never stops the
loop. -/
def processFrames (decode : List Nat → Option Nat) (displayed : Option Nat)
    (frames : List (List Nat)) : Option Nat :=
  frames.foldl (onFrame decode) displayed

theorem bridgeStep_preserves_inv (s : BridgeState) (m : SignalMsg)
    (h : s.remoteDesc ≠ none → s.candidateBuffer = []) :
    (bridgeStep s m).remoteDesc ≠ none →
    (bridgeStep s m).candidateBuffer = [] := by
  cases m with
  | offer sdp => intro _; rfl
  | answer sdp => exact h
  | unknown t => exact h
  | iceCandidate c =>
      cases hr : s.remoteDesc with
      | none =>
          intro hne
          exact absurd (by simp [bridgeStep, hr]) hne
      | some d =>
          intro _
          simpa [bridgeStep, hr] using h (by simp [hr])

theorem bridgeRun_inv (msgs : List SignalMsg) (s : BridgeState)
    (h : s.remoteDesc ≠ none → s.candidateBuffer = []) :
    (bridgeRun s msgs).remoteDesc ≠ none →
    (bridgeRun s msgs).candidateBuffer = [] := by
  induction msgs generalizing s with
  | nil => exact h
  | cons m rest ih =>
      simpa [bridgeRun, List.foldl] using
        ih (bridgeStep s m) (bridgeStep_preserves_inv s m h)

/-- C1: candidate-buffer contract of the bridge negotiation session.  A
candidate arriving while the remote description is unset is appended to
the buffer and not applied; applying the remote description (offer case)
applies every buffered candidate exactly once in arrival order and leaves
the buffer empty; a candidate arriving once the remote description is set
is applied immediately and never touches the buffer; and on every run
from the initial state, whenever the remote description is set the buffer
is empty. -/
theorem candidate_buffer_contract :
    (∀ (s : BridgeState) (c : ICECandidateInit), s.remoteDesc = none →
        bridgeStep s (SignalMsg.iceCandidate c)
          = ⟨none, s.candidateBuffer ++ [c], s.applied⟩)
  ∧ (∀ (s : BridgeState) (sdp : String),
        bridgeStep s (SignalMsg.offer sdp)
          = ⟨some sdp, [], s.applied ++ s.candidateBuffer⟩)
  ∧ (∀ (s : BridgeState) (c : ICECandidateInit) (d : String),
        s.remoteDesc = some d →
        bridgeStep s (SignalMsg.iceCandidate c)
          = ⟨some d, s.candidateBuffer, s.applied ++ [c]⟩)
  ∧ (∀ msgs : List SignalMsg,
        (bridgeRun initBridge msgs).remoteDesc ≠ none →
        (bridgeRun initBridge msgs).candidateBuffer = []) := by
  refine ⟨?_, ?_, ?_, ?_⟩
  · intro s c h
    obtain ⟨rd, buf, app⟩ := s
    cases h
    rfl
  · intro s sdp
    rfl
  · intro s c d h
    obtain ⟨rd, buf, app⟩ := s
    cases h
    rfl
  · intro msgs
    exact bridgeRun_inv msgs initBridge (fun h => absurd rfl h)

/-- Witness for C1 at concrete states: a candidate received before the
remote description lands at the end of the buffer, a candidate received
after it is applied at once with the buffer untouched, and after an offer
has been processed from the initial state the buffer is empty. -/
theorem candidate_buffer_contract_witness :
    (bridgeStep ⟨none, [⟨"a", "0", 0⟩], []⟩
        (SignalMsg.iceCandidate ⟨"b", "0", 1⟩)
      = ⟨none, [⟨"a", "0", 0⟩, ⟨"b", "0", 1⟩], []⟩)
  ∧ (bridgeStep ⟨some "r", [], []⟩ (SignalMsg.iceCandidate ⟨"b", "0", 1⟩)
      = ⟨some "r", [], [⟨"b", "0", 1⟩]⟩)
  ∧ (bridgeRun initBridge [SignalMsg.offer "o"]).candidateBuffer = [] :=
  ⟨candidate_buffer_contract.1 ⟨none, [⟨"a", "0", 0⟩], []⟩ ⟨"b", "0", 1⟩ rfl,
   candidate_buffer_contract.2.2.1 ⟨some "r", [], []⟩ ⟨"b", "0", 1⟩ "r" rfl,
   candidate_buffer_contract.2.2.2 [SignalMsg.offer "o"] (by decide)⟩

/-- C2 counterexample: in the unnamed Go bridge variant (part_000) a
session whose remote description is already set (Stable) that receives a
further answer has the answer re-applied, overwriting the stored remote
description, contradicting the claim that session state is unaltered. -/
theorem stable_answer_counterexample :
    part000Answer (some "v=0 a") "v=0 b" ≠ some "v=0 a" := by
  decide

/-- C2 amended: in the frontend handler (webrtc.connect.jsx) an answer
received while the signaling state is already stable is rejected without
altering any session state; the unnamed Go bridge variant (part_000)
instead applies every received answer unconditionally as the new remote
description. -/
theorem stable_answer_guard :
    (∀ (s : JsxState) (sdp : String), s.stable = true → jsxAnswer s sdp = s)
  ∧ (∀ (r : Option String) (sdp : String), part000Answer r sdp = some sdp) := by
  constructor
  · intro s sdp h
    simp [jsxAnswer, h]
  · intro r sdp
    rfl

/-- Witness for C2 amended: a stable frontend session ignores a duplicate
answer entirely. -/
theorem stable_answer_guard_witness :
    jsxAnswer ⟨true, some "a", [], []⟩ "b" = ⟨true, some "a", [], []⟩ :=
  stable_answer_guard.1 ⟨true, some "a", [], []⟩ "b" rfl

/-- C3: relay hub fan-out.  A message received from a registered
connection is delivered, payload unmodified, to every other registered
connection and never back to the sender; with three registered peers a
message from the first is delivered to exactly the other two. -/
theorem relay_fanout :
    (∀ (clients : List Nat) (sender : Nat) (payload : List Nat) (c : Nat),
        c ∈ clients → c ≠ sender →
        (c, payload) ∈ hubForward clients sender payload)
  ∧ (∀ (clients : List Nat) (sender : Nat) (payload : List Nat)
        (c : Nat) (p : List Nat),
        (c, p) ∈ hubForward clients sender payload →
        c ∈ clients ∧ c ≠ sender ∧ p = payload)
  ∧ hubForward [1, 2, 3] 1 [42] = [(2, [42]), (3, [42])] := by
  refine ⟨?_, ?_, by decide⟩
  · intro clients sender payload c hc hne
    simp only [hubForward, List.mem_map, List.mem_filter]
    exact ⟨c, ⟨hc, by simpa using hne⟩, rfl⟩
  · intro clients sender payload c p hm
    simp only [hubForward, List.mem_map, List.mem_filter] at hm
    obtain ⟨a, ⟨ha, hane⟩, heq⟩ := hm
    obtain ⟨rfl, rfl⟩ := Prod.mk.injEq .. ▸ heq
    exact ⟨ha, by simpa using hane, rfl⟩

/-- Witness for C3: connection 2 receives the payload of a message sent
by connection 1 in a two-member hub, and every delivery of that fan-out
goes to a registered non-sender with the payload unmodified. -/
theorem relay_fanout_witness :
    ((2, [7]) ∈ hubForward [1, 2] 1 [7])
  ∧ (2 ∈ [1, 2] ∧ 2 ≠ 1 ∧ [7] = [7]) :=
  ⟨relay_fanout.1 [1, 2] 1 [7] 2 (by decide) (by decide),
   relay_fanout.2.1 [1, 2] 1 [7] 2 [7] (by decide)⟩

/-- C4 counterexample: a well-formed JSON message with type offer but no
sdp field is not rejected and logged; the unchecked string assertion at
client/client-bridge.go line 141 panics, crashing the signaling loop. -/
theorem malformed_message_counterexample :
    processSignal initBridge [("type", JVal.str "offer")]
      = GoResult.panicked := by
  rfl

/-- C4 amended: a message whose type tag is unrecognized or missing is
logged and ignored without crashing and without state change, and so is a
spurious answer even with a malformed sdp field; but a message with a
known tag whose required field is missing or has the wrong type panics
through an unchecked type assertion instead of being rejected at the
boundary. -/
theorem malformed_message_handling :
    (∀ s : BridgeState,
        processSignal s [("type", JVal.str "bogus")] = GoResult.ok s)
  ∧ (∀ s : BridgeState, processSignal s [] = GoResult.ok s)
  ∧ (∀ s : BridgeState,
        processSignal s [("type", JVal.num 3)] = GoResult.ok s)
  ∧ (∀ s : BridgeState,
        processSignal s [("type", JVal.str "answer"), ("sdp", JVal.num 3)]
          = GoResult.ok s)
  ∧ (∀ s : BridgeState,
        processSignal s [("type", JVal.str "offer")] = GoResult.panicked)
  ∧ (∀ (s : BridgeState) (n : Nat),
        processSignal s [("type", JVal.str "offer"), ("sdp", JVal.num n)]
          = GoResult.panicked)
  ∧ (∀ s : BridgeState,
        processSignal s
            [("type", JVal.str "ice-candidate"), ("candidate", JVal.str "x")]
          = GoResult.panicked)
  ∧ (∀ s : BridgeState,
        processSignal s
            [("type", JVal.str "ice-candidate"),
             ("candidate", JVal.obj [("candidate", JVal.str "c")])]
          = GoResult.panicked) :=
  ⟨fun _ => rfl, fun _ => rfl, fun _ => rfl, fun _ => rfl,
   fun _ => rfl, fun _ _ => rfl, fun _ => rfl, fun _ => rfl⟩

/-- C5 counterexample: a SetRemoteDescription failure in the offer case
does not close just the one peer link; it reaches log.Fatalf and the
outcome is termination of the whole process. -/
theorem error_fatality_counterexample :
    offerCaseFallible ⟨none, [], []⟩ "v=0" false = ExecOutcome.fatalExit := by
  rfl

/-- C5 amended: a candidate-application failure is recovered (logged and
skipped, the session continues with unchanged state), but a
session-description application failure invokes log.Fatalf and terminates
the entire process with a non-zero status rather than only closing that
peer link. -/
theorem error_fatality_scope :
    (∀ (s : BridgeState) (c : ICECandidateInit) (b : Bool),
        ∃ s2, candCaseFallible s c b = ExecOutcome.ok s2)
  ∧ (∀ (s : BridgeState) (c : ICECandidateInit),
        candCaseFallible s c false = ExecOutcome.ok s)
  ∧ (∀ (s : BridgeState) (sdp : String),
        offerCaseFallible s sdp false = ExecOutcome.fatalExit)
  ∧ (∀ (s : BridgeState) (sdp : String),
        offerCaseFallible s sdp true
          = ExecOutcome.ok ⟨some sdp, [], s.applied ++ s.candidateBuffer⟩) :=
  ⟨fun s c b => ⟨if b then { s with applied := s.applied ++ [c] } else s, rfl⟩,
   fun _ _ => rfl, fun _ _ => rfl, fun _ _ => rfl⟩

/-- C6 counterexample: members 1, 2, 3, a message from 1, and a failing
write to 2.  The fan-out still attempts the write to 3 and membership is
untouched, but the loop emits no log line at all, so the write error is
not logged as the claim states. -/
theorem send_failure_logging_counterexample :
    fanoutFull [1, 2, 3] 1 [2]
      = ⟨[(2, false), (3, true)], [], [1, 2, 3]⟩ := by
  decide

/-- C6 amended: a send failure to one recipient aborts nothing (every
other member is still attempted, in order, whatever the set of failing
recipients) and removes nobody from the membership set, and cleanup
happens only through the disconnect path after the read loop ends; the
write error, however, is silently discarded, not logged. -/
theorem send_failure_isolation :
    (∀ (m : List Nat) (sender : Nat) (failing : List Nat),
        (fanoutFull m sender failing).attempts.map Prod.fst
          = m.filter (fun c => c != sender))
  ∧ (∀ (m : List Nat) (sender : Nat) (failing : List Nat),
        (fanoutFull m sender failing).members = m)
  ∧ (∀ (m : List Nat) (sender : Nat) (failing : List Nat),
        (fanoutFull m sender failing).logs = [])
  ∧ (∀ (m : List Nat) (c : Nat),
        hubApply m (HubOp.disconnect c) = m.filter (fun x => x != c)) := by
  refine ⟨?_, fun _ _ _ => rfl, fun _ _ _ => rfl, fun _ _ => rfl⟩
  intro m sender failing
  simp only [fanoutFull, List.map_map]
  exact List.map_id _

theorem hubApply_not_mem (m : List Nat) (c : Nat) (op : HubOp)
    (hc : c ∉ m) (hop : op ≠ HubOp.connect c) : c ∉ hubApply m op := by
  cases op with
  | connect a =>
      have hca : c ≠ a := fun h => hop (by rw [h])
      by_cases ha : a ∈ m
      · simpa [hubApply, ha] using hc
      · simp [hubApply, ha, List.mem_append, hc, hca]
  | message s p => simpa [hubApply] using hc
  | disconnect a =>
      intro h
      exact hc (List.mem_of_mem_filter h)

theorem hubRunFrom_not_mem (ops : List HubOp) (m : List Nat) (c : Nat)
    (hc : c ∉ m) (hops : ∀ o ∈ ops, o ≠ HubOp.connect c) :
    c ∉ hubRunFrom m ops := by
  induction ops generalizing m with
  | nil => exact hc
  | cons op rest ih =>
      show c ∉ hubRunFrom (hubApply m op) rest
      exact ih (hubApply m op)
        (hubApply_not_mem m c op hc (hops op (List.mem_cons_self op rest)))
        (fun o ho => hops o (List.mem_cons_of_mem op ho))

theorem opDeliveries_not_mem (m : List Nat) (op : HubOp) (c : Nat)
    (hc : c ∉ m) : c ∉ opDeliveries m op := by
  cases op with
  | message s p =>
      intro h
      exact hc (List.mem_of_mem_filter h)
  | connect a => simp [opDeliveries]
  | disconnect a => simp [opDeliveries]

/-- C7: once the disconnect handling has removed a connection, no forward
triggered by any later message targets it again, as long as that
connection does not register anew; and each fan-out delivers to each
recipient at most once (membership without duplicates gives a delivery
list without duplicates).  The single mutex in handleWS serializes
registration, fan-out and removal, so traces of atomic hub operations
cover every interleaving, including a forward in flight at disconnect
time. -/
theorem disconnect_isolation :
    (∀ (m : List Nat) (c : Nat) (p1 p2 : List HubOp) (op : HubOp),
        (∀ o ∈ p1 ++ op :: p2, o ≠ HubOp.connect c) →
        c ∉ opDeliveries
            (hubRunFrom (hubApply m (HubOp.disconnect c)) p1) op)
  ∧ (∀ (m : List Nat) (op : HubOp), m.Nodup → (opDeliveries m op).Nodup) := by
  constructor
  · intro m c p1 p2 op hno
    apply opDeliveries_not_mem
    apply hubRunFrom_not_mem
    · intro h
      have := List.of_mem_filter h
      simp at this
    · intro o ho
      exact hno o (List.mem_append_left _ ho)
  · intro m op hm
    cases op with
    | message s p => exact hm.filter _
    | connect a => simp [opDeliveries]
    | disconnect a => simp [opDeliveries]

/-- Witness for C7: after connection 2 is removed, a later message from 1
(after another connection joined) is not delivered to 2, and a fan-out
over distinct members has no duplicate recipient. -/
theorem disconnect_isolation_witness :
    (2 ∉ opDeliveries
        (hubRunFrom (hubApply [1, 2, 3] (HubOp.disconnect 2))
          [HubOp.connect 4])
        (HubOp.message 1 [9]))
  ∧ (opDeliveries [1, 2, 3] (HubOp.message 1 [9])).Nodup :=
  ⟨disconnect_isolation.1 [1, 2, 3] 2 [HubOp.connect 4] []
      (HubOp.message 1 [9]) (by decide),
   disconnect_isolation.2 [1, 2, 3] (HubOp.message 1 [9]) (by decide)⟩

theorem fbgrabLoop_fail_cons (st : FrameStep) (rest : List FrameStep)
    (k : Nat) (h : st.isFail = true) :
    fbgrabLoop (st :: rest) k = fbgrabLoop rest (k + 1) := by
  cases st with
  | captureFail => rfl
  | readFail => rfl
  | frame d => simp [FrameStep.isFail] at h

theorem scrotLoop_fail_cons (st : FrameStep) (rest : List FrameStep)
    (k : Nat) (h : st.isFail = true) :
    scrotLoop (st :: rest) k = scrotLoop rest k := by
  cases st with
  | captureFail => rfl
  | readFail => rfl
  | frame d => simp [FrameStep.isFail] at h

theorem fbgrabLoop_all_fail (fs : List FrameStep) (d : List Nat) (k : Nat)
    (h : ∀ x ∈ fs, x.isFail = true) :
    fbgrabLoop (fs ++ [FrameStep.frame d]) k = (some d, k + fs.length) := by
  induction fs generalizing k with
  | nil => simp [fbgrabLoop]
  | cons st rest ih =>
      rw [List.cons_append,
        fbgrabLoop_fail_cons st _ k (h st (List.mem_cons_self st rest)),
        ih (k + 1) (fun x hx => h x (List.mem_cons_of_mem st hx))]
      simp only [List.length_cons, Prod.mk.injEq, true_and]
      omega

theorem scrotLoop_all_fail (fs : List FrameStep) (d : List Nat) (k : Nat)
    (h : ∀ x ∈ fs, x.isFail = true) :
    scrotLoop (fs ++ [FrameStep.frame d]) k = (some d, k) := by
  induction fs with
  | nil => simp [scrotLoop]
  | cons st rest ih =>
      rw [List.cons_append,
        scrotLoop_fail_cons st _ k (h st (List.mem_cons_self st rest)),
        ih (fun x hx => h x (List.mem_cons_of_mem st hx))]

/-- C8 counterexample: in the scrot frame loop of part_002, one capture
failure followed by a success sends the frame after zero backoff sleeps,
not the one fixed backoff delay per failure that the claim requires. -/
theorem frame_retry_backoff_counterexample :
    scrotLoop [FrameStep.captureFail, FrameStep.frame [1]] 0 = (some [1], 0)
  ∧ (scrotLoop [FrameStep.captureFail, FrameStep.frame [1]] 0).2 ≠ 1 := by
  constructor <;> decide

/-- C8 amended: in the fbgrab frame loops (client/client-bridge.go) every
capture or read failure sleeps exactly one pacing interval before the
retry, the loop never ends because of such a failure, and the first
successful frame is sent with exactly one backoff sleep per preceding
failure; the scrot loop of part_002 likewise never ends on failure and
sends the first successful frame, but retries immediately with no backoff
sleep at all. -/
theorem frame_source_resilience :
    (∀ (fs : List FrameStep) (d : List Nat),
        (∀ x ∈ fs, x.isFail = true) →
        fbgrabLoop (fs ++ [FrameStep.frame d]) 0 = (some d, fs.length))
  ∧ (∀ (fs : List FrameStep) (d : List Nat),
        (∀ x ∈ fs, x.isFail = true) →
        scrotLoop (fs ++ [FrameStep.frame d]) 0 = (some d, 0)) := by
  constructor
  · intro fs d h
    simpa using fbgrabLoop_all_fail fs d 0 h
  · intro fs d h
    exact scrotLoop_all_fail fs d 0 h

/-- Witness for C8: two failures then a successful frame give two backoff
sleeps in the fbgrab loop and none in the scrot loop. -/
theorem frame_source_resilience_witness :
    (fbgrabLoop
        [FrameStep.captureFail, FrameStep.readFail, FrameStep.frame [7]] 0
      = (some [7], 2))
  ∧ (scrotLoop
        [FrameStep.captureFail, FrameStep.readFail, FrameStep.frame [7]] 0
      = (some [7], 0)) :=
  ⟨frame_source_resilience.1 [FrameStep.captureFail, FrameStep.readFail]
      [7] (by decide),
   frame_source_resilience.2 [FrameStep.captureFail, FrameStep.readFail]
      [7] (by decide)⟩

theorem fromBE32_toBE32 (n : Nat) (h : n < 4294967296) :
    fromBE32 (n / 16777216 % 256) (n / 65536 % 256) (n / 256 % 256)
      (n % 256) = n := by
  unfold fromBE32
  omega

/-- C9: length-prefix framing round trip.  Writing every frame as a
4-byte big-endian length followed by the payload and concatenating, then
decoding by repeatedly reading a 4-byte big-endian length and exactly
that many bytes, recovers the original frames in order, provided each
frame is shorter than 2 to the 32 bytes. -/
theorem framing_round_trip (fs : List (List Nat))
    (h : ∀ f ∈ fs, f.length < 4294967296) :
    decodeStream (encodeStream fs) = some fs := by
  induction fs with
  | nil =>
      have he : encodeStream [] = [] := rfl
      rw [he, decodeStream]
  | cons f rest ih =>
      have hf := h f (List.mem_cons_self f rest)
      have hrest := ih (fun g hg => h g (List.mem_cons_of_mem f hg))
      have hestream : encodeStream (f :: rest)
          = f.length / 16777216 % 256 :: f.length / 65536 % 256
            :: f.length / 256 % 256 :: f.length % 256
            :: (f ++ encodeStream rest) := by
        simp [encodeStream, encodeFrame, toBE32]
      rw [hestream, decodeStream]
      simp only [fromBE32_toBE32 f.length hf, List.length_append]
      rw [if_pos (Nat.le_add_right f.length (encodeStream rest).length)]
      rw [List.drop_left' rfl, List.take_left' rfl, hrest]

/-- Witness for C9 at a concrete frame sequence, the empty frame
included. -/
theorem framing_round_trip_witness :
    decodeStream (encodeStream [[1, 2, 3], [], [255]])
      = some [[1, 2, 3], [], [255]] :=
  framing_round_trip [[1, 2, 3], [], [255]] (by decide)

/-- C10: frame sink decode tolerance.  A frame whose bytes fail to decode
leaves the displayed image unchanged and the receive path alive: the rest
of the frame sequence is processed exactly as if the bad frame had never
arrived, and a frame that decodes replaces the displayed image. -/
theorem frame_sink_decode_tolerance :
    (∀ (decode : List Nat → Option Nat) (d : Option Nat) (f : List Nat),
        decode f = none → onFrame decode d f = d)
  ∧ (∀ (decode : List Nat → Option Nat) (d : Option Nat) (f : List Nat)
        (rest : List (List Nat)),
        decode f = none →
        processFrames decode d (f :: rest) = processFrames decode d rest)
  ∧ (∀ (decode : List Nat → Option Nat) (d : Option Nat) (f : List Nat)
        (i : Nat),
        decode f = some i → onFrame decode d f = some i) := by
  refine ⟨?_, ?_, ?_⟩
  · intro decode d f hf
    simp [onFrame, hf]
  · intro decode d f rest hf
    simp [processFrames, List.foldl, onFrame, hf]
  · intro decode d f i hf
    simp [onFrame, hf]

/-- Witness for C10 with the head-byte decoder: an empty frame fails to
decode and leaves the display unchanged, also in the middle of a
sequence, and a decodable frame replaces the display. -/
theorem frame_sink_decode_tolerance_witness :
    (onFrame List.head? (some 5) [] = some 5)
  ∧ (processFrames List.head? (some 5) ([] :: [[9]])
      = processFrames List.head? (some 5) [[9]])
  ∧ (onFrame List.head? (some 5) [9] = some 9) :=
  ⟨frame_sink_decode_tolerance.1 List.head? (some 5) [] rfl,
   frame_sink_decode_tolerance.2.1 List.head? (some 5) [] [[9]] rfl,
   frame_sink_decode_tolerance.2.2 List.head? (some 5) [9] 9 rfl⟩
